import Mathlib

/-!
# A shallow embedding of the `ainternet` client SDK

This file embeds the Python client of the `ainternet` repository
(`src/ainternet/ains.py`, `src/ainternet/ipoll.py`, `src/ainternet/client.py`)
into Lean and proves properties of the embedded code.

Modelling conventions:
* Python strings are `List Char` (`Str`); `str.lower` is `Char.toLower`
  mapped over the list, `str.strip` removes leading and trailing
  whitespace, `str.replace(pat, "")` is an explicit left-to-right scan.
* JSON values flowing between client and hub are the inductive `JVal`;
  a Python `dict` is an association list with first-match lookup
  (Python dict keys are unique, so first-match lookup agrees with it).
* The wall clock (`datetime.now()`) is an explicit `Nat` parameter
  counting elapsed seconds from an arbitrary epoch; the clock is assumed
  monotone (a cache timestamp is never later than the current instant).
* Network requests are explicit: each operation takes the hub's
  behaviour for the single HTTP call it may issue as a parameter of a
  small sum type, and reports in its result whether the call was issued.
* Python exceptions are `Except` results; an exception value is `PyErr`.
-/

/-- Python strings, modelled as their character sequences. -/
abbrev Str := List Char

/-- `str.lower()` (ASCII case-folding, as Lean's `Char.toLower`). -/
def pyLower (s : Str) : Str := s.map Char.toLower

/-- `str.strip()`: drop leading and trailing whitespace. -/
def pyStrip (s : Str) : Str :=
  ((s.dropWhile Char.isWhitespace).reverse.dropWhile Char.isWhitespace).reverse

/-- The characters of the fixed `".aint"` suffix. -/
def aintChars : Str := ".aint".data

/-- `s.replace(".aint", "")`: delete every occurrence of `".aint"`,
scanning left to right (Python `str.replace` semantics). -/
def removeAint : Str → Str
  | [] => []
  | c :: rest =>
    if aintChars.isPrefixOf (c :: rest) then removeAint (rest.drop 4)
    else c :: removeAint rest
termination_by s => s.length
decreasing_by
  · simp only [List.length_drop, List.length_cons]
    omega
  · simp

/-- Does `".aint"` occur (start) anywhere in `s`? -/
def containsAint : Str → Bool
  | [] => false
  | c :: rest => aintChars.isPrefixOf (c :: rest) || containsAint rest

/-- Python `dict` assignment `m[k] = v` on a dict modelled as an
association list: overwrite in place if the key is present (Python
dicts keep the original position of an overwritten key), append
otherwise. -/
def dictSet {α : Type} (m : List (Str × α)) (k : Str) (v : α) : List (Str × α) :=
  if (m.lookup k).isSome then m.map (fun p => if p.1 = k then (k, v) else p)
  else m ++ [(k, v)]

/- ## ains.py: data model -/

/-- `AINSDomain` (ains.py lines 28-80): a resolved `.aint` domain record. -/
structure AINSDomain where
  domain : Str
  agent : Str
  owner : Str
  endpoint : Str
  i_poll : Str
  capabilities : List Str
  trust_score : ℚ
  status : Str
  registered_at : Option Str
deriving DecidableEq

/-- `AINSDomain.has_capability` (ains.py lines 64-66):
`capability.lower() in [c.lower() for c in self.capabilities]`. -/
def AINSDomain.has_capability (d : AINSDomain) (capability : Str) : Bool :=
  (d.capabilities.map pyLower).contains (pyLower capability)

/- ## ains.py: the AINS client -/

/-- `AINS._normalize_domain` (ains.py lines 116-121):
lower-case, strip, then append `".aint"` unless already a suffix. -/
def AINS.normalize_domain (domain : Str) : Str :=
  let domain := pyStrip (pyLower domain)
  if aintChars.isSuffixOf domain then domain else domain ++ aintChars

/-- `AINS._agent_from_domain` (ains.py lines 123-125):
`domain.replace(".aint", "")`. -/
def AINS.agent_from_domain (domain : Str) : Str := removeAint domain

/-- The fields the resolver reads out of a successful lookup response
body (after the `record = data.get("record", data)` unwrapping); a
field absent from the JSON object is `none`. -/
structure RecordData where
  agent : Option Str
  owner : Option Str
  endpoint : Option Str
  i_poll : Option Str
  capabilities : Option (List Str)
  trust_score : Option ℚ
  status : Option Str
  registered_at : Option Str
deriving DecidableEq

/-- Hub behaviour for the one `GET /api/ains/resolve/{agent_id}` call a
`resolve` may issue: a transport-level failure (timeout, connection
error, or non-2xx status surfaced by `raise_for_status`, all of which
Python raises as `requests.exceptions.RequestException`), a 2xx body
with `"status": "not_found"`, or a 2xx body carrying a record. -/
inductive ResolveResp where
  | failure
  | notFound
  | found (record : RecordData)
deriving DecidableEq

/-- The mutable state of an `AINS` instance.  The Python class keeps two
dicts `_cache` and `_cache_time`; every reachable state keys them
identically (each write and each clear updates both together), so they
are modelled as one association list from canonical domain to
(record, write-time). -/
structure AINSState where
  cache : List (Str × (AINSDomain × Nat))
deriving DecidableEq

/-- The empty cache of a fresh `AINS` instance. -/
def AINSState.init : AINSState := ⟨[]⟩

/-- `AINS._cache_ttl` (ains.py line 114): 300 seconds. -/
def AINS.cache_ttl : Nat := 300

/-- Construction of the `AINSDomain` from a lookup response body
(ains.py lines 166-176), with the `record.get(k, default)` defaults. -/
def AINS.mkRecord (domain agent_id : Str) (record : RecordData) : AINSDomain :=
  { domain := domain
    agent := record.agent.getD agent_id
    owner := record.owner.getD "unknown".data
    endpoint := record.endpoint.getD []
    i_poll := record.i_poll.getD []
    capabilities := record.capabilities.getD []
    trust_score := record.trust_score.getD (1 / 2)
    status := record.status.getD "active".data
    registered_at := record.registered_at }

/-- Result of one `AINS.resolve` call: the returned value, the state
after the call, whether the HTTP request was issued, and — when it was —
the bare identifier interpolated into the request path. -/
structure ResolveOut where
  result : Option AINSDomain
  state : AINSState
  networkCalled : Bool
  requestedAgent : Option Str
deriving DecidableEq

/-- `AINS.resolve` (ains.py lines 127-185).

`cache_age` is Python's `(datetime.now() - self._cache_time[domain]).seconds`:
for a monotone clock (`t ≤ now`) the `timedelta.seconds` component is the
elapsed seconds modulo 86400 (the day part is discarded), hence
`(now - t) % 86400` here. -/
def AINS.resolve (st : AINSState) (now : Nat) (domain : Str) (use_cache : Bool)
    (resp : ResolveResp) : ResolveOut :=
  let domain := AINS.normalize_domain domain
  let agent_id := AINS.agent_from_domain domain
  let cacheHit : Option AINSDomain :=
    if use_cache then
      match st.cache.lookup domain with
      | some (rec, t) => if (now - t) % 86400 < AINS.cache_ttl then some rec else none
      | none => none
    else none
  match cacheHit with
  | some rec => ⟨some rec, st, false, none⟩
  | none =>
    match resp with
    | .failure => ⟨none, st, true, some agent_id⟩
    | .notFound => ⟨none, st, true, some agent_id⟩
    | .found record =>
      let d := AINS.mkRecord domain agent_id record
      ⟨some d, ⟨dictSet st.cache domain (d, now)⟩, true, some agent_id⟩

/-- `AINS.clear_cache` (ains.py lines 258-261): drop every entry. -/
def AINS.clear_cache (_st : AINSState) : AINSState := ⟨[]⟩

/-- Python's truthiness test for an `Optional[str]`:
`None` and the empty string are falsy. -/
def pyFalsyOptStr : Option Str → Bool
  | none => true
  | some s => s.isEmpty

/-- `AINS.search` (ains.py lines 226-252), parameterised by the
directory `list_domains()` returned, which the claims quantify over.
`sorted(..., key=trust_score, reverse=True)` is Python's stable sort
with ties kept in input order, i.e. a stable merge sort under the
total relation `b.trust_score ≤ a.trust_score`. -/
def AINS.search (domains : List AINSDomain) (capability : Option Str)
    (min_trust : ℚ) : List AINSDomain :=
  let domains :=
    if pyFalsyOptStr capability then domains
    else domains.filter (fun d => d.has_capability (capability.getD []))
  let domains :=
    if 0 < min_trust then domains.filter (fun d => min_trust ≤ d.trust_score)
    else domains
  domains.mergeSort (fun a b => b.trust_score ≤ a.trust_score)

/- ## ipoll.py: data model -/

/-- `PollType` (ipoll.py lines 34-40): the closed message-type enumeration. -/
inductive PollType where
  | PUSH
  | PULL
  | SYNC
  | TASK
  | ACK
deriving DecidableEq

/-- The `.value` string of each `PollType` member. -/
def PollType.value : PollType → Str
  | .PUSH => "PUSH".data
  | .PULL => "PULL".data
  | .SYNC => "SYNC".data
  | .TASK => "TASK".data
  | .ACK => "ACK".data

/-- JSON values exchanged with the hub (Python dynamically typed data:
dict values, message fields, metadata). Objects are association lists. -/
inductive JVal where
  | jnull
  | jbool (b : Bool)
  | jnum (q : ℚ)
  | jstr (s : Str)
  | jarr (elems : List JVal)
  | jobj (fields : List (Str × JVal))

/-- `dict.get(k)` on a JSON object: the stored value, or Python `None`
(i.e. `jnull`) when the key is absent. -/
def jget : List (Str × JVal) → Str → JVal
  | [], _ => .jnull
  | (k₁, v) :: rest, k => if k₁ = k then v else jget rest k

/-- `dict.get(k, default)`: the stored value, or `default` when the key
is absent.  (A key stored with value `None` yields `None`, exactly as in
Python, where `.get` cannot tell a stored `None` from an absent key.) -/
def jgetD : List (Str × JVal) → Str → JVal → JVal
  | [], _, d => d
  | (k₁, v) :: rest, k, d => if k₁ = k then v else jgetD rest k d

/-- Is the key present in the JSON object at all? -/
def jhas : List (Str × JVal) → Str → Bool
  | [], _ => false
  | (k₁, _) :: rest, k => k₁ = k || jhas rest k

/-- A Python exception escaping an `IPoll` operation: a `ValueError`
carrying its message, or a `requests.HTTPError` from `raise_for_status`
(any transport-level failure). -/
inductive PyErr where
  | valueError (msg : Str)
  | httpError
deriving DecidableEq

/-- `PollMessage` (ipoll.py lines 43-67).  The Python dataclass fields
are dynamically typed; every field is stored as the JSON value it was
built from, except `poll_type`, which every constructor site in the
code builds as a genuine `PollType` member (`push` passes its
`PollType` argument through, `pull`/`history` coerce with
`PollType(...)`, which returns a member or raises). -/
structure PollMessage where
  id : JVal
  from_agent : JVal
  to_agent : JVal
  content : JVal
  poll_type : PollType
  status : JVal
  session_id : JVal
  created_at : JVal
  metadata : JVal

/-- `PollMessage.to_dict` (ipoll.py lines 84-96).  The
`self.poll_type.value if isinstance(self.poll_type, PollType) else
self.poll_type` guard always takes the first branch here because
`poll_type` is a `PollType` member at every constructor site. -/
def PollMessage.to_dict (m : PollMessage) : List (Str × JVal) :=
  [ ("id".data, m.id),
    ("from_agent".data, m.from_agent),
    ("to_agent".data, m.to_agent),
    ("content".data, m.content),
    ("poll_type".data, .jstr m.poll_type.value),
    ("status".data, m.status),
    ("session_id".data, m.session_id),
    ("created_at".data, m.created_at),
    ("metadata".data, m.metadata) ]

/- ## ipoll.py: the IPoll client -/

/-- `PollType(v)`: the Enum constructor call.  It returns the member
whose value equals `v` and raises `ValueError` for any other value
(`PollType` is a `str` enum, so only the five exact member strings are
accepted — no coercion, no default). -/
def PollType.ofValue : JVal → Except PyErr PollType
  | .jstr s =>
    if s = "PUSH".data then .ok .PUSH
    else if s = "PULL".data then .ok .PULL
    else if s = "SYNC".data then .ok .SYNC
    else if s = "TASK".data then .ok .TASK
    else if s = "ACK".data then .ok .ACK
    else .error (.valueError ("is not a valid PollType".data))
  | _ => .error (.valueError ("is not a valid PollType".data))

/-- `IPoll._normalize_agent` (ipoll.py lines 130-132):
`agent.replace(".aint", "").lower().strip()`. -/
def IPoll.normalize_agent (agent : Str) : Str :=
  pyStrip (pyLower (removeAint agent))

/-- Decoding of one entry of a pull/history response into a
`PollMessage` (ipoll.py lines 228-238): tolerant key fallbacks
(`from`/`from_agent`, `to`/`to_agent`, `type`/`poll_type`), defaults for
absent keys, and the strict `PollType(...)` coercion, whose
`ValueError` is the only way this decoding fails. -/
def IPoll.decodePoll (agent_id : Str) (poll : List (Str × JVal)) :
    Except PyErr PollMessage :=
  match PollType.ofValue
      (jgetD poll "type".data (jgetD poll "poll_type".data (.jstr "PUSH".data))) with
  | .error e => .error e
  | .ok pt =>
    .ok
      { id := jgetD poll "id".data (.jstr [])
        from_agent := jgetD poll "from".data (jgetD poll "from_agent".data (.jstr []))
        to_agent := jgetD poll "to".data (jgetD poll "to_agent".data (.jstr agent_id))
        content := jgetD poll "content".data (.jstr [])
        poll_type := pt
        status := jgetD poll "status".data (.jstr "pending".data)
        session_id := jgetD poll "session_id".data .jnull
        created_at := jgetD poll "created_at".data .jnull
        metadata := jgetD poll "metadata".data (.jobj []) }

/-- The `for poll in data.get("polls", [])` loop of `pull`: entries are
decoded left to right and the first `ValueError` aborts the loop
(Python raises out of the list construction). -/
def IPoll.decodePolls (agent_id : Str) :
    List (List (Str × JVal)) → Except PyErr (List PollMessage)
  | [] => .ok []
  | p :: rest =>
    match IPoll.decodePoll agent_id p with
    | .error e => .error e
    | .ok m =>
      match IPoll.decodePolls agent_id rest with
      | .error e => .error e
      | .ok ms => .ok (m :: ms)

/-- Hub behaviour for the one HTTP call `pull` may issue: transport
failure (timeout, connection error, non-2xx), or a 2xx body whose
`"polls"` entries are the given JSON objects. -/
inductive PullResp where
  | failure
  | success (polls : List (List (Str × JVal)))

/-- Result of an `IPoll` operation that yields messages: the value or
the escaping exception, and whether the HTTP request was issued. -/
structure PullOut where
  result : Except PyErr (List PollMessage)
  networkAttempted : Bool

/-- `IPoll.pull` (ipoll.py lines 197-240).  `mark_read` only shapes the
query string of the request, which the claims do not inspect. -/
def IPoll.pull (agent_id : Option Str) (_mark_read : Bool) (resp : PullResp) :
    PullOut :=
  if pyFalsyOptStr agent_id then
    ⟨.error (.valueError "agent_id is required to receive messages".data), false⟩
  else
    match resp with
    | .failure => ⟨.error .httpError, true⟩
    | .success polls => ⟨IPoll.decodePolls (agent_id.getD []) polls, true⟩

/-- Hub behaviour for the one HTTP call `push` may issue: transport
failure, or a 2xx JSON body (carrying the hub-assigned id/status). -/
inductive PushResp where
  | failure
  | success (data : List (Str × JVal))

/-- Result of `IPoll.push`: the returned message or the escaping
exception, whether the HTTP request was issued, and the JSON payload
posted when it was. -/
structure PushOut where
  result : Except PyErr PollMessage
  networkAttempted : Bool
  payload : Option (List (Str × JVal))

/-- `IPoll.push` (ipoll.py lines 134-195).  `now` is the
`datetime.now().isoformat()` string stamped on the returned message. -/
def IPoll.push (agent_id : Option Str) (now : Str) (to_agent : Str)
    (content : Str) (poll_type : PollType) (session_id : Option Str)
    (metadata : Option (List (Str × JVal))) (resp : PushResp) : PushOut :=
  if pyFalsyOptStr agent_id then
    ⟨.error (.valueError "agent_id is required to send messages".data), false, none⟩
  else
    let aid := agent_id.getD []
    let to_agent := IPoll.normalize_agent to_agent
    let payload : List (Str × JVal) :=
      [ ("from_agent".data, .jstr aid),
        ("to_agent".data, .jstr to_agent),
        ("content".data, .jstr content),
        ("poll_type".data, .jstr poll_type.value),
        ("session_id".data, match session_id with | none => .jnull | some s => .jstr s),
        ("metadata".data, .jobj (metadata.getD [])) ]
    match resp with
    | .failure => ⟨.error .httpError, true, some payload⟩
    | .success data =>
      ⟨.ok
        { id := jgetD data "id".data (.jstr [])
          from_agent := .jstr aid
          to_agent := .jstr to_agent
          content := .jstr content
          poll_type := poll_type
          status := jgetD data "status".data (.jstr "pending".data)
          session_id := match session_id with | none => .jnull | some s => .jstr s
          created_at := .jstr now
          metadata := .jobj (metadata.getD []) }, true, some payload⟩

/-- Hub behaviour for an `IPoll` operation that returns the hub's raw
JSON mapping (`respond`, `register`, verification): transport failure or
a 2xx JSON object body. -/
inductive RawResp where
  | failure
  | success (data : List (Str × JVal))

/-- Result of an `IPoll` operation returning the hub's raw mapping. -/
structure RawOut where
  result : Except PyErr (List (Str × JVal))
  networkAttempted : Bool

/-- `IPoll.respond` (ipoll.py lines 242-272): identity precondition,
then the hub's JSON body returned unmodified. -/
def IPoll.respond (agent_id : Option Str) (_poll_id : Str) (_response : Str)
    (resp : RawResp) : RawOut :=
  if pyFalsyOptStr agent_id then
    ⟨.error (.valueError "agent_id is required to respond".data), false⟩
  else
    match resp with
    | .failure => ⟨.error .httpError, true⟩
    | .success data => ⟨.ok data, true⟩

/-- `IPoll.register` (ipoll.py lines 350-381): identity precondition,
default capability list `["push", "pull"]` when the argument is falsy,
then the hub's JSON body returned unmodified. -/
def IPoll.register (agent_id : Option Str) (_description : Str)
    (capabilities : Option (List Str)) (resp : RawResp) : RawOut :=
  if pyFalsyOptStr agent_id then
    ⟨.error (.valueError "agent_id is required to register".data), false⟩
  else
    let _capabilities :=
      match capabilities with
      | none => ["push".data, "pull".data]
      | some l => if l.isEmpty then ["push".data, "pull".data] else l
    match resp with
    | .failure => ⟨.error .httpError, true⟩
    | .success data => ⟨.ok data, true⟩

/- ## client.py: the facade -/

/-- The messenger sub-client owned by the facade: `IPoll`'s per-instance
configuration that the embedded operations read (`base_url` and
`timeout` only shape the HTTP request itself). -/
structure IPollClient where
  agent_id : Option Str
deriving DecidableEq

/-- Modelled from the spec: `IPoll.request_verification` is invoked by
the facade (client.py line 304) but its definition is absent from
`src/ainternet/ipoll.py` (only its caller is in `src/`).  Per the spec
it is the messenger's verification-request operation: one HTTP call to
a hub-defined endpoint whose raw result mapping (carrying
`challenge_id` and `question`) is returned verbatim, with transport
failures propagating as for the messenger's other operations. -/
def IPoll.request_verification (_client : IPollClient) (_description : Option Str)
    (_capabilities : Option (List Str)) (_contact : Option Str)
    (resp : RawResp) : RawOut :=
  match resp with
  | .failure => ⟨.error .httpError, true⟩
  | .success data => ⟨.ok data, true⟩

/-- Modelled from the spec: `IPoll.submit_verification` is invoked by
the facade (client.py line 334) but its definition is absent from
`src/ainternet/ipoll.py` (only its caller is in `src/`).  Per the spec
it is the messenger's verification-submit operation: one HTTP call
posting `challenge_id`/`answer` whose raw result mapping (the
verified/rejected outcome) is returned verbatim, with transport
failures propagating as for the messenger's other operations. -/
def IPoll.submit_verification (_client : IPollClient) (_challenge_id : Str)
    (_answer : Str) (resp : RawResp) : RawOut :=
  match resp with
  | .failure => ⟨.error .httpError, true⟩
  | .success data => ⟨.ok data, true⟩

/-- The `AInternet` facade (client.py lines 31-70): it owns one `AINS`
and one `IPoll` sub-client built from the same hub URL, identity and
timeout. -/
structure AInternet where
  agent_id : Option Str
  ains : AINSState
  ipoll : IPollClient
deriving DecidableEq

/-- `AInternet.request_verification` (client.py lines 267-304):
`return self.ipoll.request_verification(description, capabilities, contact)`. -/
def AInternet.request_verification (ai : AInternet) (description : Option Str)
    (capabilities : Option (List Str)) (contact : Option Str)
    (resp : RawResp) : RawOut :=
  IPoll.request_verification ai.ipoll description capabilities contact resp

/-- `AInternet.submit_verification` (client.py lines 306-334):
`return self.ipoll.submit_verification(challenge_id, answer)`. -/
def AInternet.submit_verification (ai : AInternet) (challenge_id : Str)
    (answer : Str) (resp : RawResp) : RawOut :=
  IPoll.submit_verification ai.ipoll challenge_id answer resp
/-- A concrete cached record for `"bot.aint"`. -/
def sampleRecord : AINSDomain :=
  { domain := "bot.aint".data
    agent := "bot".data
    owner := "unknown".data
    endpoint := []
    i_poll := []
    capabilities := []
    trust_score := 1 / 2
    status := "active".data
    registered_at := none }

/-- The claim's normalization of an identifier, following the spec's
words exactly: strip the `".aint"` suffix, case-fold, trim. -/
def specNormalizeAgent (a : Str) : Str :=
  pyStrip (pyLower (if aintChars.isSuffixOf a then a.take (a.length - 5) else a))

/-- Modelled from the spec for comparison with the code: the bare
identifier as the claim describes it — the canonical domain with its
`".aint"` suffix stripped (and nothing else removed). -/
def specStripSuffix (d : Str) : Str :=
  if aintChars.isSuffixOf d then d.take (d.length - 5) else d

/-- The five JSON values accepted by the `PollType(...)` coercion: the
`.value` strings of the closed enumeration's members. -/
def pollTypeVals : List JVal :=
  [.jstr "PUSH".data, .jstr "PULL".data, .jstr "SYNC".data,
   .jstr "TASK".data, .jstr "ACK".data]

/- ## Helper lemmas -/

/-- `dict.get(k, d)` returns the default when the key is absent. -/
theorem jgetD_of_jhas_eq_false {poll : List (Str × JVal)} {k : Str} {d : JVal}
    (h : jhas poll k = false) : jgetD poll k d = d := by
  induction poll with
  | nil => rfl
  | cons p rest ih =>
    obtain ⟨k₁, v⟩ := p
    simp only [jhas, Bool.or_eq_false_iff, decide_eq_false_iff_not] at h
    simp only [jgetD, if_neg h.1]
    exact ih h.2

/- ## C2 -/

/-- C2: on a "not found" hub response and on any transport-level
failure, `resolve` yields `None` instead of raising, and — whenever the
network was actually consulted, i.e. no fresh cache entry short-circuited
the call — the cache is left entirely unchanged.  (The embedding of
`resolve` is a total function: every failure listed in the claim is the
`ResolveResp.failure`/`ResolveResp.notFound` case of the one
`try/except requests.exceptions.RequestException` block, so no error
reaches the caller.) -/
theorem resolve_absorbs_failures (st : AINSState) (now : Nat) (name : Str)
    (use_cache : Bool) (resp : ResolveResp)
    (hnet : (AINS.resolve st now name use_cache resp).networkCalled = true)
    (hr : resp = .failure ∨ resp = .notFound) :
    (AINS.resolve st now name use_cache resp).result = none ∧
    (AINS.resolve st now name use_cache resp).state = st := by
  rcases hr with rfl | rfl <;>
    (unfold AINS.resolve at hnet ⊢; dsimp only at hnet ⊢) <;>
    (split at hnet
     · exact absurd hnet (by simp)
     · exact ⟨rfl, rfl⟩)

/-- Witness for C2: with an empty cache, a failing lookup of `"bot"`
returns `None` and leaves the state untouched. -/
theorem resolve_absorbs_failures_witness :
    (AINS.resolve AINSState.init 0 "bot".data true .failure).networkCalled = true ∧
    (AINS.resolve AINSState.init 0 "bot".data true .failure).result = none ∧
    (AINS.resolve AINSState.init 0 "bot".data true .failure).state = AINSState.init :=
  ⟨by decide,
   resolve_absorbs_failures AINSState.init 0 "bot".data true .failure (by decide)
     (Or.inl rfl)⟩

/- ## C4 -/

/-- C4: with an unbound local identity (Python-falsy `agent_id`),
`push`, `pull`, `respond` and `register` all fail with the
`ValueError` precondition error before the HTTP request is attempted
(`networkAttempted = false` for every hub behaviour), and this
`ValueError` is distinct from the transport error `httpError`. -/
theorem ipoll_unbound_fails_fast (aid : Option Str)
    (h : pyFalsyOptStr aid = true) (now toAgent content : Str) (pt : PollType)
    (sid : Option Str) (md : Option (List (Str × JVal))) (pr : PushResp)
    (mr : Bool) (lr : PullResp) (pid rtext : Str) (rr : RawResp)
    (desc : Str) (caps : Option (List Str)) (gr : RawResp) :
    (IPoll.push aid now toAgent content pt sid md pr).result
        = .error (.valueError "agent_id is required to send messages".data) ∧
    (IPoll.push aid now toAgent content pt sid md pr).networkAttempted = false ∧
    (IPoll.pull aid mr lr).result
        = .error (.valueError "agent_id is required to receive messages".data) ∧
    (IPoll.pull aid mr lr).networkAttempted = false ∧
    (IPoll.respond aid pid rtext rr).result
        = .error (.valueError "agent_id is required to respond".data) ∧
    (IPoll.respond aid pid rtext rr).networkAttempted = false ∧
    (IPoll.register aid desc caps gr).result
        = .error (.valueError "agent_id is required to register".data) ∧
    (IPoll.register aid desc caps gr).networkAttempted = false ∧
    (∀ msg : Str, PyErr.valueError msg ≠ PyErr.httpError) := by
  refine ⟨?_, ?_, ?_, ?_, ?_, ?_, ?_, ?_, fun msg hc => by cases hc⟩ <;>
    simp [IPoll.push, IPoll.pull, IPoll.respond, IPoll.register, h]

/-- Witness for C4: a messenger built with `agent_id=None` fails fast on
`push` without attempting the request. -/
theorem ipoll_unbound_fails_fast_witness :
    pyFalsyOptStr none = true ∧
    (IPoll.push none [] [] [] .PUSH none none .failure).result
        = .error (.valueError "agent_id is required to send messages".data) ∧
    (IPoll.push none [] [] [] .PUSH none none .failure).networkAttempted = false :=
  ⟨rfl,
   (ipoll_unbound_fails_fast none rfl [] [] [] .PUSH none none .failure
      true .failure [] [] .failure [] none .failure).1,
   (ipoll_unbound_fails_fast none rfl [] [] [] .PUSH none none .failure
      true .failure [] [] .failure [] none .failure).2.1⟩

/- ## C9 -/

/-- C9: the facade's `request_verification` and `submit_verification`
are direct delegations to the messenger's verification operations with
the same arguments in the same order, returning their result unchanged;
on a successful exchange the hub's raw mapping (challenge id/question,
resp. verified/rejected) comes back verbatim, so the facade never fails
for a reason of its own. -/
theorem facade_verification_delegates (ai : AInternet)
    (description : Option Str) (capabilities : Option (List Str))
    (contact : Option Str) (challenge_id answer : Str) (r₁ r₂ : RawResp) :
    AInternet.request_verification ai description capabilities contact r₁
      = IPoll.request_verification ai.ipoll description capabilities contact r₁ ∧
    AInternet.submit_verification ai challenge_id answer r₂
      = IPoll.submit_verification ai.ipoll challenge_id answer r₂ ∧
    (∀ data, r₁ = .success data →
      (AInternet.request_verification ai description capabilities contact r₁).result
        = .ok data) ∧
    (∀ data, r₂ = .success data →
      (AInternet.submit_verification ai challenge_id answer r₂).result = .ok data) :=
  ⟨rfl, rfl, fun _data h => by subst h; rfl, fun _data h => by subst h; rfl⟩

/-- Witness for C9: a concrete facade call returns the hub's mapping. -/
theorem facade_verification_delegates_witness :
    (AInternet.request_verification ⟨none, AINSState.init, ⟨none⟩⟩ none none none
        (.success [])).result = .ok [] ∧
    (AInternet.submit_verification ⟨none, AINSState.init, ⟨none⟩⟩ [] []
        (.success [])).result = .ok [] :=
  ⟨(facade_verification_delegates ⟨none, AINSState.init, ⟨none⟩⟩ none none none
      [] [] (.success []) (.success [])).2.2.1 [] rfl,
   (facade_verification_delegates ⟨none, AINSState.init, ⟨none⟩⟩ none none none
      [] [] (.success []) (.success [])).2.2.2 [] rfl⟩

/- ## C7 -/

/-- C7: encoding any `PollMessage` with `to_dict` and decoding the
resulting dictionary with the pull-entry decoding rules returns the
message unchanged — in particular `id`, `from_agent`, `to_agent`,
`content`, `poll_type`, `session_id` and `metadata` are preserved
exactly (and so are `status` and `created_at`, which the claim merely
allows to differ). -/
theorem message_roundtrip (agent_id : Str) (m : PollMessage) :
    IPoll.decodePoll agent_id m.to_dict = .ok m := by
  rcases m with ⟨id, fa, ta, co, pt, st, si, ca, md⟩
  cases pt <;> rfl

/- ## C1 -/

/-- C1 fails on the code: with a cache entry for `"bot.aint"` written at
time 0, a `resolve("bot", use_cache=True)` exactly 86400 seconds (one
day) later returns the stale cached record and issues no network
request, although the entry's age (86400 s) is far above the 300-second
freshness window — `(datetime.now() - write).seconds` discards whole
days, so the computed age is `86400 % 86400 = 0 < 300`. -/
theorem resolve_returns_stale_after_one_day :
    AINS.resolve ⟨[("bot.aint".data, (sampleRecord, 0))]⟩ 86400 "bot".data true
        .failure
      = ⟨some sampleRecord, ⟨[("bot.aint".data, (sampleRecord, 0))]⟩, false, none⟩ :=
  rfl

/- ## C8 -/

/-- C8 fails on the code: a successful `push` from bound identity
`"Alice.aint"` to recipient `"x.aint.y"` returns a message whose
`from_agent` is the identity verbatim (`"Alice.aint"`), not its
normalization (`"alice"`), and whose `to_agent` is `"x.y"` — the code
removes every occurrence of `".aint"`, not just a trailing suffix — so
it differs from the claimed suffix-stripped normalization
(`"x.aint.y"`, which carries no `".aint"` suffix). -/
theorem push_does_not_normalize_from_agent :
    ∃ m : PollMessage,
      (IPoll.push (some "Alice.aint".data) "t".data "x.aint.y".data "hi".data
          .PUSH none none (.success [])).result = .ok m ∧
      m.from_agent ≠ .jstr (specNormalizeAgent "Alice.aint".data) ∧
      m.to_agent ≠ .jstr (specNormalizeAgent "x.aint.y".data) := by
  have hto : IPoll.normalize_agent "x.aint.y".data = "x.y".data := by
    simp [IPoll.normalize_agent, removeAint, aintChars]
    decide
  refine ⟨_, rfl, ?_, ?_⟩
  · intro h
    injection h with h
    exact absurd h (by decide)
  · intro h
    injection h with h
    rw [hto] at h
    exact absurd h (by decide)

/-- C8 as amended: on every successful `push` with a bound identity,
the returned message's `to_agent` is the recipient with every
occurrence of the exact (case-sensitive) substring `".aint"` removed,
then lower-cased and trimmed, and its `from_agent` is the bound
identity entirely unnormalized. -/
theorem push_to_agent_replaced_from_agent_verbatim (aid : Str)
    (h : aid ≠ []) (now toAgent content : Str) (pt : PollType)
    (sid : Option Str) (md : Option (List (Str × JVal)))
    (data : List (Str × JVal)) :
    ∃ m : PollMessage,
      (IPoll.push (some aid) now toAgent content pt sid md
          (.success data)).result = .ok m ∧
      m.to_agent = .jstr (pyStrip (pyLower (removeAint toAgent))) ∧
      m.from_agent = .jstr aid := by
  have hf : pyFalsyOptStr (some aid) = false := by
    simpa [pyFalsyOptStr, List.isEmpty_iff] using h
  refine ⟨{ id := jgetD data "id".data (.jstr [])
            from_agent := .jstr aid
            to_agent := .jstr (pyStrip (pyLower (removeAint toAgent)))
            content := .jstr content
            poll_type := pt
            status := jgetD data "status".data (.jstr "pending".data)
            session_id := match sid with | none => .jnull | some s => .jstr s
            created_at := .jstr now
            metadata := .jobj (md.getD []) }, ?_, rfl, rfl⟩
  simp [IPoll.push, hf, IPoll.normalize_agent]

/-- Witness for the amended C8 at a concrete call. -/
theorem push_to_agent_replaced_from_agent_verbatim_witness :
    "Alice.aint".data ≠ ([] : Str) ∧
    ∃ m : PollMessage,
      (IPoll.push (some "Alice.aint".data) "t".data "Bob.AINT".data "hi".data
          .PUSH none none (.success [])).result = .ok m ∧
      m.to_agent = .jstr (pyStrip (pyLower (removeAint "Bob.AINT".data))) ∧
      m.from_agent = .jstr "Alice.aint".data :=
  ⟨by decide,
   push_to_agent_replaced_from_agent_verbatim "Alice.aint".data (by decide)
     "t".data "Bob.AINT".data "hi".data .PUSH none none []⟩

/- ## C3 -/

/-- `PollType(v)` either returns a member (exactly when `v` is one of
the five member-value strings) or raises `ValueError`. -/
theorem pollType_ofValue_cases (v : JVal) :
    (v ∈ pollTypeVals ∧ ∃ pt, PollType.ofValue v = .ok pt) ∨
    (v ∉ pollTypeVals ∧ ∃ s, PollType.ofValue v = .error (.valueError s)) := by
  cases v with
  | jstr s =>
    by_cases h1 : s = "PUSH".data
    · exact Or.inl ⟨by simp [pollTypeVals, h1], .PUSH, by simp [PollType.ofValue, h1]⟩
    · by_cases h2 : s = "PULL".data
      · exact Or.inl ⟨by simp [pollTypeVals, h2], .PULL, by simp [PollType.ofValue, h1, h2]⟩
      · by_cases h3 : s = "SYNC".data
        · exact Or.inl ⟨by simp [pollTypeVals, h3], .SYNC,
            by simp [PollType.ofValue, h1, h2, h3]⟩
        · by_cases h4 : s = "TASK".data
          · exact Or.inl ⟨by simp [pollTypeVals, h4], .TASK,
              by simp [PollType.ofValue, h1, h2, h3, h4]⟩
          · by_cases h5 : s = "ACK".data
            · exact Or.inl ⟨by simp [pollTypeVals, h5], .ACK,
                by simp [PollType.ofValue, h1, h2, h3, h4, h5]⟩
            · exact Or.inr ⟨by simp [pollTypeVals, h1, h2, h3, h4, h5],
                "is not a valid PollType".data,
                by simp [PollType.ofValue, h1, h2, h3, h4, h5]⟩
  | jnull => exact Or.inr ⟨by simp [pollTypeVals], _, rfl⟩
  | jbool b => exact Or.inr ⟨by simp [pollTypeVals], _, rfl⟩
  | jnum q => exact Or.inr ⟨by simp [pollTypeVals], _, rfl⟩
  | jarr es => exact Or.inr ⟨by simp [pollTypeVals], _, rfl⟩
  | jobj fs => exact Or.inr ⟨by simp [pollTypeVals], _, rfl⟩

/-- A successfully decoded entry's type is a member of the closed
enumeration. -/
theorem decodePoll_type_mem (agent_id : Str) (poll : List (Str × JVal))
    (m : PollMessage) (hm : IPoll.decodePoll agent_id poll = .ok m) :
    m.poll_type = .PUSH ∨ m.poll_type = .PULL ∨ m.poll_type = .SYNC ∨
    m.poll_type = .TASK ∨ m.poll_type = .ACK := by
  unfold IPoll.decodePoll at hm
  split at hm
  · exact absurd hm (by simp)
  · injection hm with hm
    subst hm
    rename_i pt _
    cases pt <;> simp

/-- Every message of a successfully decoded pull-entry list has its
type in the closed enumeration. -/
theorem decodePolls_type_mem (agent_id : Str) :
    ∀ (polls : List (List (Str × JVal))) (msgs : List PollMessage),
      IPoll.decodePolls agent_id polls = .ok msgs →
      ∀ m ∈ msgs,
        m.poll_type = .PUSH ∨ m.poll_type = .PULL ∨ m.poll_type = .SYNC ∨
        m.poll_type = .TASK ∨ m.poll_type = .ACK := by
  intro polls
  induction polls with
  | nil =>
    intro msgs h m hm
    unfold IPoll.decodePolls at h
    injection h with h
    subst h
    exact absurd hm (by simp)
  | cons p rest ih =>
    intro msgs h m hm
    unfold IPoll.decodePolls at h
    cases hdp : IPoll.decodePoll agent_id p with
    | error e =>
      rw [hdp] at h
      exact absurd h (by simp)
    | ok m₁ =>
      rw [hdp] at h
      cases hdr : IPoll.decodePolls agent_id rest with
      | error e =>
        rw [hdr] at h
        exact absurd h (by simp)
      | ok ms =>
        rw [hdr] at h
        injection h with h
        subst h
        rcases List.mem_cons.mp hm with rfl | hmem
        · exact decodePoll_type_mem agent_id p m hdp
        · exact ih ms hdr m hmem

/-- C3: decoding a pull entry succeeds exactly when its message-type
value — key `"type"`, falling back to `"poll_type"`, defaulting to
`"PUSH"` when neither key exists — is one of the five member strings;
any other value raises the `ValueError` decoding error (no coercion, no
defaulting), an entry with no type key at all decodes with type `PUSH`,
and consequently every message of a successfully decoded pull response
has its type inside the closed five-member enumeration. -/
theorem decode_rejects_unknown_types (agent_id : Str)
    (poll : List (Str × JVal)) :
    ((∃ m, IPoll.decodePoll agent_id poll = .ok m) ↔
      jgetD poll "type".data (jgetD poll "poll_type".data (.jstr "PUSH".data))
        ∈ pollTypeVals) ∧
    (jgetD poll "type".data (jgetD poll "poll_type".data (.jstr "PUSH".data))
        ∉ pollTypeVals →
      ∃ s, IPoll.decodePoll agent_id poll = .error (.valueError s)) ∧
    (∀ m, IPoll.decodePoll agent_id poll = .ok m →
      m.poll_type = .PUSH ∨ m.poll_type = .PULL ∨ m.poll_type = .SYNC ∨
      m.poll_type = .TASK ∨ m.poll_type = .ACK) ∧
    (jhas poll "type".data = false → jhas poll "poll_type".data = false →
      ∃ m, IPoll.decodePoll agent_id poll = .ok m ∧ m.poll_type = .PUSH) ∧
    (∀ (aid : Option Str) (mr : Bool) (polls : List (List (Str × JVal)))
        (msgs : List PollMessage),
      (IPoll.pull aid mr (.success polls)).result = .ok msgs →
      ∀ m ∈ msgs,
        m.poll_type = .PUSH ∨ m.poll_type = .PULL ∨ m.poll_type = .SYNC ∨
        m.poll_type = .TASK ∨ m.poll_type = .ACK) := by
  refine ⟨?_, ?_, decodePoll_type_mem agent_id poll, ?_, ?_⟩
  · constructor
    · rintro ⟨m, hm⟩
      rcases pollType_ofValue_cases
          (jgetD poll "type".data (jgetD poll "poll_type".data (.jstr "PUSH".data))) with
        ⟨hmem, _⟩ | ⟨_, s, he⟩
      · exact hmem
      · unfold IPoll.decodePoll at hm
        rw [he] at hm
        exact absurd hm (by simp)
    · intro hmem
      rcases pollType_ofValue_cases
          (jgetD poll "type".data (jgetD poll "poll_type".data (.jstr "PUSH".data))) with
        ⟨_, pt, ho⟩ | ⟨hnm, _⟩
      · refine ⟨{ id := jgetD poll "id".data (.jstr [])
                  from_agent := jgetD poll "from".data
                    (jgetD poll "from_agent".data (.jstr []))
                  to_agent := jgetD poll "to".data
                    (jgetD poll "to_agent".data (.jstr agent_id))
                  content := jgetD poll "content".data (.jstr [])
                  poll_type := pt
                  status := jgetD poll "status".data (.jstr "pending".data)
                  session_id := jgetD poll "session_id".data .jnull
                  created_at := jgetD poll "created_at".data .jnull
                  metadata := jgetD poll "metadata".data (.jobj []) }, ?_⟩
        unfold IPoll.decodePoll
        rw [ho]
      · exact absurd hmem hnm
  · intro hnm
    rcases pollType_ofValue_cases
        (jgetD poll "type".data (jgetD poll "poll_type".data (.jstr "PUSH".data))) with
      ⟨hmem, _⟩ | ⟨_, s, he⟩
    · exact absurd hmem hnm
    · refine ⟨s, ?_⟩
      unfold IPoll.decodePoll
      rw [he]
  · intro h1 h2
    have htv : jgetD poll "type".data
        (jgetD poll "poll_type".data (.jstr "PUSH".data)) = .jstr "PUSH".data := by
      rw [jgetD_of_jhas_eq_false h1, jgetD_of_jhas_eq_false h2]
    refine ⟨{ id := jgetD poll "id".data (.jstr [])
              from_agent := jgetD poll "from".data
                (jgetD poll "from_agent".data (.jstr []))
              to_agent := jgetD poll "to".data
                (jgetD poll "to_agent".data (.jstr agent_id))
              content := jgetD poll "content".data (.jstr [])
              poll_type := .PUSH
              status := jgetD poll "status".data (.jstr "pending".data)
              session_id := jgetD poll "session_id".data .jnull
              created_at := jgetD poll "created_at".data .jnull
              metadata := jgetD poll "metadata".data (.jobj []) }, ?_, rfl⟩
    unfold IPoll.decodePoll
    rw [htv]
    rfl
  · intro aid mr polls msgs hres m hmem
    unfold IPoll.pull at hres
    cases haid : pyFalsyOptStr aid with
    | true =>
      rw [haid] at hres
      exact absurd hres (by simp)
    | false =>
      rw [haid] at hres
      simp only [Bool.false_eq_true, if_false] at hres
      exact decodePolls_type_mem (aid.getD []) polls msgs hres m hmem

/- ## C5 -/

/-- `Char.ofNat` of a valid code point has that code point. -/
theorem char_toNat_ofNat {n : Nat} (h : Nat.isValidChar n) :
    (Char.ofNat n).toNat = n := by
  simp only [Char.ofNat, h, dif_pos, Char.ofNatAux, Char.toNat]
  rfl

/-- Characters with different code points differ. -/
theorem char_ne_of_toNat_ne {c d : Char} (h : c.toNat ≠ d.toNat) : c ≠ d :=
  fun he => h (by rw [he])

/-- `decide` form of `char_ne_of_toNat_ne`. -/
theorem decide_char_eq_false {c d : Char} (h : c.toNat ≠ d.toNat) :
    decide (c = d) = false :=
  decide_eq_false (char_ne_of_toNat_ne h)

/-- ASCII lower-casing is idempotent. -/
theorem toLower_toLower (c : Char) : c.toLower.toLower = c.toLower := by
  unfold Char.toLower
  by_cases h : c.toNat ≥ 65 ∧ c.toNat ≤ 90
  · rw [if_pos h]
    have ht : (Char.ofNat (c.toNat + 32)).toNat = c.toNat + 32 :=
      char_toNat_ofNat (Or.inl (by omega))
    rw [if_neg]
    rw [ht]
    omega
  · rw [if_neg h, if_neg h]

/-- Lower-casing does not change whether a character is whitespace. -/
theorem isWhitespace_toLower (c : Char) :
    c.toLower.isWhitespace = c.isWhitespace := by
  have e1 : (' ').toNat = 32 := rfl
  have e2 : ('\t').toNat = 9 := rfl
  have e3 : ('\x0d').toNat = 13 := rfl
  have e4 : ('\n').toNat = 10 := rfl
  unfold Char.toLower
  by_cases h : c.toNat ≥ 65 ∧ c.toNat ≤ 90
  · rw [if_pos h]
    have ht : (Char.ofNat (c.toNat + 32)).toNat = c.toNat + 32 :=
      char_toNat_ofNat (Or.inl (by omega))
    have h1 : (Char.ofNat (c.toNat + 32)).isWhitespace = false := by
      simp only [Char.isWhitespace, Bool.or_eq_false_iff]
      and_intros <;> exact decide_char_eq_false (by rw [ht]; omega)
    have h2 : c.isWhitespace = false := by
      simp only [Char.isWhitespace, Bool.or_eq_false_iff]
      and_intros <;> exact decide_char_eq_false (by omega)
    rw [h1, h2]
  · rw [if_neg h]

/-- `lower` is idempotent on strings. -/
theorem pyLower_pyLower (s : Str) : pyLower (pyLower s) = pyLower s := by
  simp only [pyLower, List.map_map]
  exact List.map_congr_left (fun a _ => toLower_toLower a)

/-- Whitespace-ness composed with lower-casing is whitespace-ness. -/
theorem ws_comp_toLower :
    (Char.isWhitespace ∘ Char.toLower) = Char.isWhitespace :=
  funext isWhitespace_toLower

/-- `lower` commutes with `strip`. -/
theorem pyLower_pyStrip (s : Str) : pyLower (pyStrip s) = pyStrip (pyLower s) := by
  simp only [pyStrip, pyLower, List.dropWhile_map, ws_comp_toLower,
    ← List.map_reverse]

/-- The head of a `dropWhile p` result falsifies `p`. -/
theorem head_dropWhile_false (p : Char → Bool) (l : Str) :
    ∀ a, (l.dropWhile p).head? = some a → p a = false := by
  induction l with
  | nil => intro a h; exact absurd h (by simp)
  | cons c r ih =>
    intro a h
    rw [List.dropWhile_cons] at h
    by_cases hc : p c
    · rw [if_pos hc] at h
      exact ih a h
    · rw [if_neg hc] at h
      injection h with h
      subst h
      exact Bool.of_not_eq_true hc

/-- A list whose head falsifies `p` is untouched by `dropWhile p`. -/
theorem dropWhile_eq_self_of_head (p : Char → Bool) (l : Str)
    (h : ∀ a, l.head? = some a → p a = false) : l.dropWhile p = l := by
  cases l with
  | nil => rfl
  | cons c r => rw [List.dropWhile_cons, if_neg (by simp [h c rfl])]

/-- The head of a stripped string is never whitespace. -/
theorem pyStrip_head_clean (s : Str) :
    ∀ a, (pyStrip s).head? = some a → Char.isWhitespace a = false := by
  intro a ha
  obtain ⟨u, hu⟩ :=
    List.dropWhile_suffix (l := (s.dropWhile Char.isWhitespace).reverse)
      Char.isWhitespace
  apply head_dropWhile_false Char.isWhitespace s a
  have hs : s.dropWhile Char.isWhitespace = pyStrip s ++ u.reverse := by
    have := congrArg List.reverse hu
    simpa [pyStrip, List.reverse_append] using this.symm
  rw [hs, List.head?_append, ha]
  rfl

/-- `strip` is idempotent. -/
theorem pyStrip_pyStrip (s : Str) : pyStrip (pyStrip s) = pyStrip s := by
  have h1 : (pyStrip s).dropWhile Char.isWhitespace = pyStrip s :=
    dropWhile_eq_self_of_head _ _ (pyStrip_head_clean s)
  have h2 : (pyStrip s).reverse
      = (s.dropWhile Char.isWhitespace).reverse.dropWhile Char.isWhitespace := by
    show ((((s.dropWhile Char.isWhitespace).reverse.dropWhile
        Char.isWhitespace)).reverse).reverse = _
    rw [List.reverse_reverse]
  show (((pyStrip s).dropWhile Char.isWhitespace).reverse.dropWhile
      Char.isWhitespace).reverse = pyStrip s
  rw [h1, h2, List.dropWhile_idempotent]
  rfl

/-- Appending `".aint"` to a head-clean string is `strip`-invariant. -/
theorem pyStrip_append_aint (t : Str)
    (htc : ∀ a, t.head? = some a → Char.isWhitespace a = false) :
    pyStrip (t ++ aintChars) = t ++ aintChars := by
  have hfront : (t ++ aintChars).dropWhile Char.isWhitespace = t ++ aintChars := by
    apply dropWhile_eq_self_of_head
    intro a ha
    rw [List.head?_append] at ha
    cases t with
    | nil =>
      simp only [List.head?_nil, Option.or] at ha
      injection ha with ha
      subst ha
      decide
    | cons c r =>
      simp only [List.head?_cons, Option.or] at ha
      exact htc a (by rw [List.head?_cons]; exact ha)
  show (((t ++ aintChars).dropWhile Char.isWhitespace).reverse.dropWhile
      Char.isWhitespace).reverse = t ++ aintChars
  rw [hfront, List.reverse_append]
  have hrev : aintChars.reverse = 't' :: "nia.".data := rfl
  rw [hrev, List.cons_append, List.dropWhile_cons, if_neg (by decide)]
  rw [← List.cons_append, ← hrev, ← List.reverse_append, List.reverse_reverse]

/-- C5: `_normalize_domain` lower-cases, trims and appends the
`".aint"` suffix when absent, and it is idempotent:
`normalize(normalize(x)) = normalize(x)` for every string; in
particular `normalize("Foo") = normalize("foo.aint") = "foo.aint"`. -/
theorem normalize_domain_idempotent :
    (∀ s : Str,
      AINS.normalize_domain (AINS.normalize_domain s) = AINS.normalize_domain s) ∧
    AINS.normalize_domain "Foo".data = AINS.normalize_domain "foo.aint".data ∧
    AINS.normalize_domain "Foo".data = "foo.aint".data := by
  refine ⟨?_, by decide, by decide⟩
  intro s
  have hlow : pyLower (pyStrip (pyLower s)) = pyStrip (pyLower s) := by
    rw [pyLower_pyStrip, pyLower_pyLower]
  have hstrip : pyStrip (pyStrip (pyLower s)) = pyStrip (pyLower s) :=
    pyStrip_pyStrip (pyLower s)
  by_cases hsuf : aintChars.isSuffixOf (pyStrip (pyLower s))
  · have hn : AINS.normalize_domain s = pyStrip (pyLower s) := by
      unfold AINS.normalize_domain
      rw [if_pos hsuf]
    rw [hn]
    unfold AINS.normalize_domain
    rw [hlow, hstrip, if_pos hsuf]
  · have hn : AINS.normalize_domain s = pyStrip (pyLower s) ++ aintChars := by
      unfold AINS.normalize_domain
      rw [if_neg hsuf]
    rw [hn]
    unfold AINS.normalize_domain
    have hl2 : pyLower (pyStrip (pyLower s) ++ aintChars)
        = pyStrip (pyLower s) ++ aintChars := by
      show (pyStrip (pyLower s) ++ aintChars).map Char.toLower
        = pyStrip (pyLower s) ++ aintChars
      rw [List.map_append]
      have : aintChars.map Char.toLower = aintChars := by decide
      rw [this]
      exact congrArg (· ++ aintChars) hlow
    rw [hl2]
    rw [pyStrip_append_aint _ (pyStrip_head_clean (pyLower s))]
    rw [if_pos ?hs]
    case hs =>
      rw [List.isSuffixOf_iff_suffix]
      exact List.suffix_append _ _

/- ## C10 -/

/-- A prefix test ignores anything appended beyond the tested length. -/
theorem isPrefixOf_append_of_le {p : Str} :
    ∀ {x : Str}, p.length ≤ x.length → ∀ (y : Str),
      p.isPrefixOf (x ++ y) = p.isPrefixOf x := by
  induction p with
  | nil => intro x h y; simp
  | cons a p ih =>
    intro x h y
    cases x with
    | nil => simp at h
    | cons b x =>
      simp only [List.cons_append, List.isPrefixOf_cons₂]
      rw [ih (by simpa using h) y]

/-- Deleting `".aint"` occurrences from `u ++ ".aint"` yields `u` when
`".aint"` occurs nowhere in `u` (no occurrence can straddle the
boundary because `".aint"` has no non-trivial border). -/
theorem removeAint_append_aint :
    ∀ (u : Str), containsAint u = false → removeAint (u ++ aintChars) = u := by
  intro u
  induction u with
  | nil =>
    intro _
    simp [removeAint, aintChars]
  | cons c u ih =>
    intro h
    unfold containsAint at h
    rw [Bool.or_eq_false_iff] at h
    obtain ⟨h1, h2⟩ := h
    have hpre : aintChars.isPrefixOf (c :: (u ++ aintChars)) = false := by
      rcases u with _ | ⟨a, _ | ⟨b, _ | ⟨d, _ | ⟨e, rest⟩⟩⟩⟩
      · simp [aintChars, List.isPrefixOf]
      · simp [aintChars, List.isPrefixOf]
      · simp [aintChars, List.isPrefixOf]
      · simp [aintChars, List.isPrefixOf]
      · rw [show (c :: (a :: b :: d :: e :: rest ++ aintChars))
            = (c :: a :: b :: d :: e :: rest) ++ aintChars from rfl]
        rw [isPrefixOf_append_of_le (by simp [aintChars])]
        exact h1
    rw [List.cons_append]
    rw [show removeAint (c :: (u ++ aintChars))
        = if aintChars.isPrefixOf (c :: (u ++ aintChars))
          then removeAint ((u ++ aintChars).drop 4)
          else c :: removeAint (u ++ aintChars) from by rw [removeAint]]
    rw [hpre]
    simp only [Bool.false_eq_true, if_false]
    exact congrArg (c :: ·) (ih h2)

/-- Every canonical domain is some `u` followed by the `".aint"`
suffix, and the spec's suffix-stripping recovers exactly that `u`. -/
theorem normalize_domain_ends_aint (s : Str) :
    ∃ u, AINS.normalize_domain s = u ++ aintChars ∧
      specStripSuffix (AINS.normalize_domain s) = u := by
  have hu : ∀ (u : Str), specStripSuffix (u ++ aintChars) = u := by
    intro u
    unfold specStripSuffix
    rw [if_pos (by rw [List.isSuffixOf_iff_suffix]; exact List.suffix_append _ _)]
    rw [show (u ++ aintChars).length - 5 = u.length from by
      simp [aintChars]]
    exact List.take_left u aintChars
  unfold AINS.normalize_domain
  by_cases hsuf : aintChars.isSuffixOf (pyStrip (pyLower s))
  · rw [if_pos hsuf]
    have := List.isSuffixOf_iff_suffix.mp hsuf
    obtain ⟨u, hu'⟩ := this
    exact ⟨u, hu'.symm, by rw [← hu', hu u]⟩
  · rw [if_neg hsuf]
    exact ⟨pyStrip (pyLower s), rfl, hu _⟩

/-- C10 as amended: whenever `resolve` issues the lookup request, the
bare identifier in the request path is the canonical domain with every
occurrence of the substring `".aint"` removed — not only the final
suffix; when `".aint"` occurs nowhere in the suffix-stripped canonical
domain (the common case), this coincides with the claim's
suffix-stripped identifier. -/
theorem resolve_requested_agent (st : AINSState) (now : Nat) (name : Str)
    (use_cache : Bool) (resp : ResolveResp)
    (hnet : (AINS.resolve st now name use_cache resp).networkCalled = true) :
    (AINS.resolve st now name use_cache resp).requestedAgent
        = some (removeAint (AINS.normalize_domain name)) ∧
    (containsAint (specStripSuffix (AINS.normalize_domain name)) = false →
      (AINS.resolve st now name use_cache resp).requestedAgent
        = some (specStripSuffix (AINS.normalize_domain name))) := by
  have h1 : (AINS.resolve st now name use_cache resp).requestedAgent
      = some (removeAint (AINS.normalize_domain name)) := by
    unfold AINS.resolve at hnet ⊢
    dsimp only at hnet ⊢
    split at hnet
    · exact absurd hnet (by simp)
    · cases resp <;> rfl
  refine ⟨h1, fun hnc => ?_⟩
  obtain ⟨u, hd, hs⟩ := normalize_domain_ends_aint name
  rw [hs] at hnc
  rw [h1, hs, hd]
  rw [removeAint_append_aint u hnc]

/-- Witness for the amended C10: resolving `"gemini"` over an empty
cache requests the bare identifier `"gemini"`. -/
theorem resolve_requested_agent_witness :
    (AINS.resolve AINSState.init 0 "gemini".data true .failure).networkCalled
        = true ∧
    containsAint (specStripSuffix (AINS.normalize_domain "gemini".data)) = false ∧
    (AINS.resolve AINSState.init 0 "gemini".data true .failure).requestedAgent
        = some (specStripSuffix (AINS.normalize_domain "gemini".data)) :=
  ⟨by decide, by decide,
   (resolve_requested_agent AINSState.init 0 "gemini".data true .failure
      (by decide)).2 (by decide)⟩

/-- C10 fails on the code as stated: for the name `"web.aint.co"` the
canonical domain is `"web.aint.co.aint"`, whose suffix-stripped bare
identifier would be `"web.aint.co"`, but the request path carries
`"web.co"` — `domain.replace(".aint", "")` removes the interior
occurrence too. -/
theorem resolve_requested_agent_counterexample :
    (AINS.resolve AINSState.init 0 "web.aint.co".data true .failure).requestedAgent
        = some "web.co".data ∧
    specStripSuffix (AINS.normalize_domain "web.aint.co".data)
        = "web.aint.co".data ∧
    some "web.co".data
        ≠ some (specStripSuffix (AINS.normalize_domain "web.aint.co".data)) := by
  refine ⟨?_, by decide, by decide⟩
  show some (AINS.agent_from_domain (AINS.normalize_domain "web.aint.co".data))
      = some "web.co".data
  rw [show AINS.normalize_domain "web.aint.co".data = "web.aint.co.aint".data
    from by decide]
  unfold AINS.agent_from_domain
  rw [show removeAint "web.aint.co.aint".data = "web.co".data from by
    simp [removeAint, aintChars]]

/- ## C6 -/

/-- `search` is a stable descending merge sort of the directory
filtered by the claim's combined predicate. -/
theorem search_eq_mergeSort_filter (domains : List AINSDomain)
    (capability : Option Str) (min_trust : ℚ) :
    AINS.search domains capability min_trust
      = List.mergeSort
          (domains.filter (fun d =>
            (pyFalsyOptStr capability || d.has_capability (capability.getD []))
            && (!(decide (0 < min_trust)) || decide (min_trust ≤ d.trust_score))))
          (fun a b => decide (b.trust_score ≤ a.trust_score)) := by
  unfold AINS.search
  by_cases hcap : pyFalsyOptStr capability = true
  · by_cases hmt : 0 < min_trust
    · simp [hcap, hmt]
    · simp [hcap, hmt]
  · rw [Bool.not_eq_true] at hcap
    by_cases hmt : 0 < min_trust
    · simp only [hcap, Bool.false_eq_true, if_false, hmt, if_pos,
        decide_eq_true_eq, Bool.false_or, decide_True, Bool.not_true,
        List.filter_filter]
      rw [List.filter_congr (fun a _ => Bool.and_comm
        (decide (min_trust ≤ a.trust_score))
        (a.has_capability (capability.getD [])))]
    · simp [hcap, hmt]

/-- C6: for every directory returned by `list()` and all arguments,
`search` returns exactly the records that case-insensitively contain
the capability (when one is given) and whose trust score is at least
`min_trust` (this filter applied only when `min_trust > 0`): the result
is a permutation of the filtered directory, it is sorted descending by
trust score, and records of equal trust score appear in the
directory's relative order (stability). -/
theorem search_spec (domains : List AINSDomain) (capability : Option Str)
    (min_trust : ℚ) :
    (AINS.search domains capability min_trust).Perm
      (domains.filter (fun d =>
        (pyFalsyOptStr capability || d.has_capability (capability.getD []))
        && (!(decide (0 < min_trust)) || decide (min_trust ≤ d.trust_score)))) ∧
    (AINS.search domains capability min_trust).Pairwise
      (fun a b => b.trust_score ≤ a.trust_score) ∧
    ∀ q : ℚ,
      (AINS.search domains capability min_trust).filter
          (fun d => d.trust_score == q)
        = (domains.filter (fun d =>
            (pyFalsyOptStr capability || d.has_capability (capability.getD []))
            && (!(decide (0 < min_trust)) || decide (min_trust ≤ d.trust_score)))).filter
            (fun d => d.trust_score == q) := by
  have htrans : ∀ a b c : AINSDomain,
      decide (b.trust_score ≤ a.trust_score) = true →
      decide (c.trust_score ≤ b.trust_score) = true →
      decide (c.trust_score ≤ a.trust_score) = true := by
    intro a b c h1 h2
    rw [decide_eq_true_eq] at h1 h2 ⊢
    exact le_trans h2 h1
  have htotal : ∀ a b : AINSDomain,
      (decide (b.trust_score ≤ a.trust_score)
        || decide (a.trust_score ≤ b.trust_score)) = true := by
    intro a b
    rcases le_total b.trust_score a.trust_score with h | h
    · rw [decide_eq_true h]
      rfl
    · rw [decide_eq_true h]
      simp
  rw [search_eq_mergeSort_filter]
  refine ⟨List.mergeSort_perm _ _, ?_, ?_⟩
  · exact (List.sorted_mergeSort htrans htotal _).imp
      (fun h => decide_eq_true_eq.mp h)
  · intro q
    set f := domains.filter (fun d =>
        (pyFalsyOptStr capability || d.has_capability (capability.getD []))
        && (!(decide (0 < min_trust)) || decide (min_trust ≤ d.trust_score)))
      with hf
    set p : AINSDomain → Bool := fun d => d.trust_score == q with hp
    have hmemq : ∀ d, p d = true → d.trust_score = q := by
      intro d hd
      rw [hp] at hd
      exact eq_of_beq hd
    have hcsorted : (f.filter p).Pairwise
        (fun a b => decide (b.trust_score ≤ a.trust_score) = true) := by
      apply List.pairwise_of_forall_mem_list
      intro a ha b hb
      have hqa := hmemq a (List.mem_filter.mp ha).2
      have hqb := hmemq b (List.mem_filter.mp hb).2
      rw [decide_eq_true_eq, hqa, hqb]
    have hsub : (f.filter p).Sublist
        (List.mergeSort f (fun a b => decide (b.trust_score ≤ a.trust_score))) :=
      List.sublist_mergeSort htrans htotal hcsorted (List.filter_sublist f)
    have hself : (f.filter p).filter p = f.filter p := by
      rw [List.filter_eq_self]
      intro a ha
      exact (List.mem_filter.mp ha).2
    have hsub2 : (f.filter p).Sublist
        ((List.mergeSort f
          (fun a b => decide (b.trust_score ≤ a.trust_score))).filter p) := by
      have := List.Sublist.filter p hsub
      rwa [hself] at this
    have hlen : ((List.mergeSort f
        (fun a b => decide (b.trust_score ≤ a.trust_score))).filter p).length
        = (f.filter p).length :=
      (List.Perm.filter p (List.mergeSort_perm f _)).length_eq
    exact (List.Sublist.eq_of_length hsub2 hlen.symm).symm

/-- Witness for C3: an entry typed `"TASK"` decodes successfully, and an
entry with no type key decodes to a `PUSH` message. -/
theorem decode_rejects_unknown_types_witness :
    (∃ m, IPoll.decodePoll [] [("type".data, JVal.jstr "TASK".data)] = .ok m) ∧
    (∃ m, IPoll.decodePoll [] [] = .ok m ∧ m.poll_type = .PUSH) :=
  ⟨(decode_rejects_unknown_types [] [("type".data, .jstr "TASK".data)]).1.mpr
      (List.mem_cons_of_mem _ (List.mem_cons_of_mem _ (List.mem_cons_of_mem _
        (List.mem_cons_self _ _)))),
   (decode_rejects_unknown_types [] []).2.2.2.1 rfl rfl⟩
